import Mathlib

/-!
Verification development for the lightroom-clone non-destructive editing
pipeline.  The definitions below embed, field for field, the Mongoose
project model (`server/models/Project.js`: `adjustmentSchema`, `cropSchema`,
`addHistory`, `applyAdjustments`, `applyCrop`, `resetEdits`), the CSS-filter
preview chain (`client/src/pages/EditorPage.tsx`: `buildCSSFilters`) and the
LRU image cache (`client/src/utils/performance.ts`: `ImageCache`).
JavaScript numbers are embedded as `Int` (every value exercised here is
integral) and timestamps (`Date.now`, `new Date()`) as an explicit `Nat`
clock passed to each operation.
-/

/-- Grain sub-object of `adjustmentSchema` (amount, size, roughness). -/
structure Grain where
  amount : Int
  size : Int
  roughness : Int
deriving DecidableEq

/-- One control point of the `curves` array of `adjustmentSchema`. -/
structure CurvePoint where
  x : Int
  y : Int
deriving DecidableEq

/-- The `adjustmentSchema` of `server/models/Project.js`: fourteen scalar
sliders, a `grain` sub-object and a `curves` control-point list. -/
structure Adjustments where
  exposure : Int
  contrast : Int
  highlights : Int
  shadows : Int
  whites : Int
  blacks : Int
  temperature : Int
  tint : Int
  vibrance : Int
  saturation : Int
  texture : Int
  clarity : Int
  dehaze : Int
  vignette : Int
  grain : Grain
  curves : List CurvePoint
deriving DecidableEq

/-- Schema default for `grain`: amount 0, size 50, roughness 50. -/
def defaultGrain : Grain := { amount := 0, size := 50, roughness := 50 }

/-- The schema defaults of `adjustmentSchema`: every scalar 0, default grain,
identity curve `[(0,0),(255,255)]`.  This is the state given to a freshly
uploaded project (`adjustments: default () => (\x7b\x7d)`). -/
def defaultAdjustments : Adjustments :=
  { exposure := 0, contrast := 0, highlights := 0, shadows := 0, whites := 0,
    blacks := 0, temperature := 0, tint := 0, vibrance := 0, saturation := 0,
    texture := 0, clarity := 0, dehaze := 0, vignette := 0,
    grain := defaultGrain,
    curves := [{ x := 0, y := 0 }, { x := 255, y := 255 }] }

/-- The documented `min`/`max` range of each grain field in the schema. -/
def grainInRange (g : Grain) : Prop :=
  0 ≤ g.amount ∧ g.amount ≤ 100 ∧ 0 ≤ g.size ∧ g.size ≤ 100 ∧
    0 ≤ g.roughness ∧ g.roughness ≤ 100

instance : DecidablePred grainInRange := fun g => by
  unfold grainInRange; infer_instance

/-- The documented `min`/`max` range of every scalar adjustment field in
`adjustmentSchema` (Mongoose validators, checked at save time): exposure in
[-5,5], the other sliders in [-100,100], grain fields in [0,100].  The
schema places no range constraint on curve points. -/
def adjustmentsValid (a : Adjustments) : Prop :=
  (-5 ≤ a.exposure ∧ a.exposure ≤ 5) ∧
  (-100 ≤ a.contrast ∧ a.contrast ≤ 100) ∧
  (-100 ≤ a.highlights ∧ a.highlights ≤ 100) ∧
  (-100 ≤ a.shadows ∧ a.shadows ≤ 100) ∧
  (-100 ≤ a.whites ∧ a.whites ≤ 100) ∧
  (-100 ≤ a.blacks ∧ a.blacks ≤ 100) ∧
  (-100 ≤ a.temperature ∧ a.temperature ≤ 100) ∧
  (-100 ≤ a.tint ∧ a.tint ≤ 100) ∧
  (-100 ≤ a.vibrance ∧ a.vibrance ≤ 100) ∧
  (-100 ≤ a.saturation ∧ a.saturation ≤ 100) ∧
  (-100 ≤ a.texture ∧ a.texture ≤ 100) ∧
  (-100 ≤ a.clarity ∧ a.clarity ≤ 100) ∧
  (-100 ≤ a.dehaze ∧ a.dehaze ≤ 100) ∧
  (-100 ≤ a.vignette ∧ a.vignette ≤ 100) ∧
  grainInRange a.grain

instance : DecidablePred adjustmentsValid := fun a => by
  unfold adjustmentsValid; infer_instance

/-- A batch adjustment update (`newAdjustments` in `applyAdjustments`): each
field is either present (`some`) or absent (`none`), mirroring which keys the
caller's JSON patch object carries. -/
structure AdjPatch where
  exposure : Option Int := none
  contrast : Option Int := none
  highlights : Option Int := none
  shadows : Option Int := none
  whites : Option Int := none
  blacks : Option Int := none
  temperature : Option Int := none
  tint : Option Int := none
  vibrance : Option Int := none
  saturation : Option Int := none
  texture : Option Int := none
  clarity : Option Int := none
  dehaze : Option Int := none
  vignette : Option Int := none
  grain : Option Grain := none
  curves : Option (List CurvePoint) := none
deriving DecidableEq

/-- `Object.assign(this.adjustments, newAdjustments)` from
`projectSchema.methods.applyAdjustments`: every key present in the patch
overwrites the current value verbatim; absent keys keep the current value.
No clamping, range check or per-field rejection happens here. -/
def mergeAdjustments (a : Adjustments) (p : AdjPatch) : Adjustments :=
  { exposure := p.exposure.getD a.exposure,
    contrast := p.contrast.getD a.contrast,
    highlights := p.highlights.getD a.highlights,
    shadows := p.shadows.getD a.shadows,
    whites := p.whites.getD a.whites,
    blacks := p.blacks.getD a.blacks,
    temperature := p.temperature.getD a.temperature,
    tint := p.tint.getD a.tint,
    vibrance := p.vibrance.getD a.vibrance,
    saturation := p.saturation.getD a.saturation,
    texture := p.texture.getD a.texture,
    clarity := p.clarity.getD a.clarity,
    dehaze := p.dehaze.getD a.dehaze,
    vignette := p.vignette.getD a.vignette,
    grain := p.grain.getD a.grain,
    curves := p.curves.getD a.curves }

/-- The `cropSchema` of `server/models/Project.js`.  The source field
`aspectRatio` (a free-form label such as "free" or "16:9") is embedded as
`aspect`. -/
structure CropSettings where
  x : Int
  y : Int
  width : Int
  height : Int
  rotation : Int
  flipHorizontal : Bool
  flipVertical : Bool
  aspect : String
deriving DecidableEq

/-- The `action` enum of a history entry: upload, adjust, crop, export,
reset (`export` is spelled `exportAction` because it is a Lean keyword). -/
inductive HistoryAction
  | upload
  | adjust
  | crop
  | exportAction
  | reset
deriving DecidableEq

/-- The `changes` payload shapes actually stored by the model methods:
`applyAdjustments` logs the old adjustments and the patch, `applyCrop` logs
the old and the new crop, `resetEdits` logs the pre-reset state, and
`addHistory` substitutes an empty object for a missing payload. -/
inductive HistoryChanges
  | adjustChange (old : Adjustments) (patch : AdjPatch)
  | cropChange (old : Option CropSettings) (newCrop : CropSettings)
  | resetChange (oldAdjustments : Adjustments) (oldCrop : Option CropSettings)
  | uploadChange
  | emptyChange
deriving DecidableEq

/-- One entry of the `history` array. -/
structure HistoryEntry where
  action : HistoryAction
  timestamp : Nat
  changes : HistoryChanges
deriving DecidableEq

/-- The `image` subdocument (`imageSchema`): descriptive data of the stored
original file.  The pixel bytes themselves live on disk at `path`; the
document never holds them. -/
structure ImageInfo where
  originalFilename : String
  filename : String
  path : String
  mimeType : String
  size : Int
  width : Int
  height : Int
deriving DecidableEq

/-- The project document (`projectSchema`), restricted to the fields the
editing pipeline reads or writes. -/
structure Project where
  title : String
  image : ImageInfo
  adjustments : Adjustments
  crop : Option CropSettings
  history : List HistoryEntry
  tags : List String
  isPublic : Bool
  starred : Bool
  lastEdited : Nat
  version : Nat
deriving DecidableEq

/-- The cap step of `addHistory`: `if (this.history.length > 50)
this.history = this.history.slice(-50)` — keep only the last 50 entries
when the array exceeds 50.  `slice(-50)` on a list of length `n > 50` is
`drop (n - 50)`. -/
def cap50 (h : List HistoryEntry) : List HistoryEntry :=
  if h.length > 50 then h.drop (h.length - 50) else h

/-- `projectSchema.methods.addHistory`: push the entry, keep only the last 50
entries via `slice(-50)` when the array exceeds 50, set `lastEdited` to the
current time and increment `version` by one. -/
def addHistory (p : Project) (action : HistoryAction)
    (changes : HistoryChanges) (now : Nat) : Project :=
  { p with
    history := cap50 (p.history ++ [{ action := action, timestamp := now, changes := changes }]),
    lastEdited := now,
    version := p.version + 1 }

/-- `projectSchema.methods.applyAdjustments`: snapshot the old adjustments,
merge the patch with `Object.assign`, then log an `adjust` history entry. -/
def applyAdjustments (p : Project) (patch : AdjPatch) (now : Nat) : Project :=
  let old := p.adjustments
  let p1 := { p with adjustments := mergeAdjustments p.adjustments patch }
  addHistory p1 HistoryAction.adjust (HistoryChanges.adjustChange old patch) now

/-- `projectSchema.methods.applyCrop`: store the given crop data verbatim and
log a `crop` history entry.  The method performs no bounds validation. -/
def applyCrop (p : Project) (cropData : CropSettings) (now : Nat) : Project :=
  let old := p.crop
  let p1 := { p with crop := some cropData }
  addHistory p1 HistoryAction.crop (HistoryChanges.cropChange old cropData) now

/-- `projectSchema.methods.resetEdits`: restore the schema-default
adjustments (`this.adjustments = \x7b\x7d`), clear the crop, and log a
`reset` entry carrying the prior state. -/
def resetEdits (p : Project) (now : Nat) : Project :=
  let p1 := { p with adjustments := defaultAdjustments, crop := none }
  addHistory p1 HistoryAction.reset
    (HistoryChanges.resetChange p.adjustments p.crop) now

/-- Folding a sequence of history appends over a project, one
`(action, changes, time)` triple at a time. -/
def appendMany (p : Project) (l : List (HistoryAction × HistoryChanges × Nat)) :
    Project :=
  l.foldl (fun q e => addHistory q e.1 e.2.1 e.2.2) p

/-- One adjustment field of a request body as the projects router sees it
(`PUT /api/projects/:id/adjustments`, `server/routes/projects.js`): the key
is absent, carries a JSON number, or carries some non-numeric value
(string, boolean, object, ...). -/
inductive FieldVal
  | absent
  | num (v : Int)
  | nonNum
deriving DecidableEq

/-- `Math.min(Math.max(value, min), max)` — the router's clamp. -/
def clampInt (v lo hi : Int) : Int := min (max v lo) hi

/-- The router's scalar-field step: a numeric value is clamped into
`[lo, hi]` and accepted; a non-numeric or absent value contributes
nothing (`typeof value === 'number'` fails, the key is skipped). -/
def validateScalar : FieldVal → Int → Int → Option Int
  | FieldVal.num v, lo, hi => some (clampInt v lo hi)
  | _, _, _ => none

/-- The `grain` sub-object of a request body, field by field. -/
structure GrainBody where
  amount : FieldVal := FieldVal.absent
  size : FieldVal := FieldVal.absent
  roughness : FieldVal := FieldVal.absent
deriving DecidableEq

/-- The router's grain handling: each numeric sub-field is clamped into
`[0, 100]`; when at least one survives, the collected fields are spread
over the project's current grain
(`\x7b...project.adjustments.grain.toObject(), ...grainAdjustments\x7d`);
otherwise no grain update is made. -/
def validateGrain (cur : Grain) (gb : GrainBody) : Option Grain :=
  let a := validateScalar gb.amount 0 100
  let s := validateScalar gb.size 0 100
  let r := validateScalar gb.roughness 0 100
  if a.isSome || s.isSome || r.isSome then
    some { amount := a.getD cur.amount, size := s.getD cur.size,
           roughness := r.getD cur.roughness }
  else none

/-- One element of a request body's `curves` array: a point with numeric
coordinates, or a malformed entry (missing or non-numeric coordinate). -/
inductive CurveEntry
  | pt (x y : Int)
  | bad
deriving DecidableEq

/-- The router's curve-point filter: keep a point only when both
coordinates are numeric and within `[0, 255]`. -/
def validCurvePoint : CurveEntry → Option CurvePoint
  | CurveEntry.pt x y =>
      if 0 ≤ x ∧ x ≤ 255 ∧ 0 ≤ y ∧ y ≤ 255 then some { x := x, y := y }
      else none
  | CurveEntry.bad => none

/-- The `adjustments` object of a request body: the fourteen allowed scalar
keys, the `grain` sub-object (`none` when absent or not an object) and the
`curves` array (`none` when absent or not an array).  Keys outside
`allowedFields` never reach `validAdjustments` and are not modelled. -/
structure AdjBody where
  exposure : FieldVal := FieldVal.absent
  contrast : FieldVal := FieldVal.absent
  highlights : FieldVal := FieldVal.absent
  shadows : FieldVal := FieldVal.absent
  whites : FieldVal := FieldVal.absent
  blacks : FieldVal := FieldVal.absent
  temperature : FieldVal := FieldVal.absent
  tint : FieldVal := FieldVal.absent
  vibrance : FieldVal := FieldVal.absent
  saturation : FieldVal := FieldVal.absent
  texture : FieldVal := FieldVal.absent
  clarity : FieldVal := FieldVal.absent
  dehaze : FieldVal := FieldVal.absent
  vignette : FieldVal := FieldVal.absent
  grain : Option GrainBody := none
  curves : Option (List CurveEntry) := none
deriving DecidableEq

/-- The validation block of `PUT /api/projects/:id/adjustments`
(`server/routes/projects.js`): build `validAdjustments` from the request —
each allowed numeric scalar clamped into its range (exposure `[-5,5]`, the
rest `[-100,100]`), non-numeric fields skipped individually, grain merged
per sub-field over the current grain, and a curves array accepted only when
at least two points survive the `[0,255]` filter. -/
def validateAdjustments (cur : Adjustments) (b : AdjBody) : AdjPatch :=
  { exposure := validateScalar b.exposure (-5) 5,
    contrast := validateScalar b.contrast (-100) 100,
    highlights := validateScalar b.highlights (-100) 100,
    shadows := validateScalar b.shadows (-100) 100,
    whites := validateScalar b.whites (-100) 100,
    blacks := validateScalar b.blacks (-100) 100,
    temperature := validateScalar b.temperature (-100) 100,
    tint := validateScalar b.tint (-100) 100,
    vibrance := validateScalar b.vibrance (-100) 100,
    saturation := validateScalar b.saturation (-100) 100,
    texture := validateScalar b.texture (-100) 100,
    clarity := validateScalar b.clarity (-100) 100,
    dehaze := validateScalar b.dehaze (-100) 100,
    vignette := validateScalar b.vignette (-100) 100,
    grain := b.grain.bind (validateGrain cur.grain),
    curves := b.curves.bind (fun entries =>
      let valid := entries.filterMap validCurvePoint
      if valid.length ≥ 2 then some valid else none) }

/-- The whole adjustment-update operation of the projects router:
validate/clamp the request body into `validAdjustments`, then call
`project.applyAdjustments(validAdjustments)`. -/
def updateAdjustmentsRoute (p : Project) (b : AdjBody) (now : Nat) : Project :=
  applyAdjustments p (validateAdjustments p.adjustments b) now

/-- The `crop` object of a request body for `PUT /api/projects/:id/crop`
(`server/routes/projects.js`): numeric x/y/width/height, optional rotation,
flips and aspect label.  The source field `aspectRatio` is embedded as
`aspect`. -/
structure CropBody where
  x : Int
  y : Int
  width : Int
  height : Int
  rotation : Option Int := none
  flipHorizontal : Option Bool := none
  flipVertical : Option Bool := none
  aspect : Option String := none
deriving DecidableEq

/-- The express-validator rotation rule: optional, within `[-180, 180]`
when present. -/
def rotationOk : Option Int → Bool
  | none => true
  | some r => decide (-180 ≤ r) && decide (r ≤ 180)

/-- The express-validator middleware of the crop route: width and height
positive integers, rotation in range when present.  (Numericness and
boolean-ness of the remaining fields are guaranteed by the typed
embedding.) -/
def cropBodyOk (b : CropBody) : Bool :=
  decide (1 ≤ b.width) && decide (1 ≤ b.height) && rotationOk b.rotation

/-- The `CropSettings` the route hands to `applyCrop`: missing optional
fields default to rotation 0 (`parseFloat(crop.rotation) || 0`), flips
false and aspect label "free". -/
def cropOfBody (b : CropBody) : CropSettings :=
  { x := b.x, y := b.y, width := b.width, height := b.height,
    rotation := b.rotation.getD 0,
    flipHorizontal := b.flipHorizontal.getD false,
    flipVertical := b.flipVertical.getD false,
    aspect := b.aspect.getD "free" }

/-- The two failure responses of the crop route: the express-validator 400
("Validation failed") and the bounds 400 ("Crop bounds exceed image
dimensions") — the latter playing the role the specification names
OutOfBoundsError. -/
inductive CropError
  | validationFailed
  | outOfBounds
deriving DecidableEq

/-- The whole crop-acceptance operation of `PUT /api/projects/:id/crop`:
validator middleware first, then the bounds check
`crop.x < 0 || crop.y < 0 || crop.x + crop.width > imageDimensions.width
|| crop.y + crop.height > imageDimensions.height` against the project's
image dimensions, and only then `project.applyCrop(...)`. -/
def acceptCrop (p : Project) (b : CropBody) (now : Nat) :
    Except CropError Project :=
  if cropBodyOk b = true then
    if b.x < 0 ∨ b.y < 0 ∨ b.x + b.width > p.image.width ∨
        b.y + b.height > p.image.height then
      Except.error CropError.outOfBounds
    else Except.ok (applyCrop p (cropOfBody b) now)
  else Except.error CropError.validationFailed

/-- The CSS filter functions `buildCSSFilters` can emit.  The `hue-rotate`
angle is `temperature * 0.1` degrees in the source; it is stored here as the
raw temperature value, i.e. in tenths of a degree. -/
inductive CSSFilter
  | brightness (pct : Int)
  | contrast (pct : Int)
  | saturate (pct : Int)
  | hueRotate (tenthsDeg : Int)
deriving DecidableEq

/-- `buildCSSFilters` from `client/src/pages/EditorPage.tsx`: each stage is
pushed only when its parameter is nonzero — brightness `100 + exposure*20` %,
contrast `100 + contrast` %, saturate `100 + saturation` %, hue-rotate
`temperature * 0.1` degrees.  Stages for the remaining adjustment fields do
not exist in the preview. -/
def buildCSSFilters (a : Adjustments) : List CSSFilter :=
  (if a.exposure ≠ 0 then [CSSFilter.brightness (100 + a.exposure * 20)] else []) ++
  (if a.contrast ≠ 0 then [CSSFilter.contrast (100 + a.contrast)] else []) ++
  (if a.saturation ≠ 0 then [CSSFilter.saturate (100 + a.saturation)] else []) ++
  (if a.temperature ≠ 0 then [CSSFilter.hueRotate a.temperature] else [])

/-- Textual form of one filter, as interpolated by the source (the
hue-rotate angle is rendered in tenths of a degree rather than as the
decimal `temperature * 0.1`). -/
def filterStr : CSSFilter → String
  | CSSFilter.brightness p => "brightness(" ++ toString p ++ "%)"
  | CSSFilter.contrast p => "contrast(" ++ toString p ++ "%)"
  | CSSFilter.saturate p => "saturate(" ++ toString p ++ "%)"
  | CSSFilter.hueRotate t => "hue-rotate(" ++ toString t ++ " tenths deg)"

/-- The string returned by `buildCSSFilters`: `filters.join(' ') || 'none'`
— the empty chain yields the canvas identity filter string "none". -/
def buildCSSFilterString (a : Adjustments) : String :=
  let l := (buildCSSFilters a).map filterStr
  if l = [] then "none" else String.intercalate " " l

/-- Applying a filter chain to one pixel value, left to right.  The
per-filter pixel semantics `interp` is left universally quantified: the
theorems below hold for every interpretation of the individual CSS filters,
because they only depend on which filters the chain contains. -/
def applyFilterChain {α : Type} (interp : CSSFilter → α → α)
    (fs : List CSSFilter) (v : α) : α :=
  fs.foldl (fun x f => interp f x) v

/-- Extracting the crop rectangle from a row-major pixel grid: the
cropped-only source, i.e. the preview geometry with no adjustment applied. -/
def cropPixels {α : Type} (src : List (List α)) (c : CropSettings) :
    List (List α) :=
  ((src.drop c.y.toNat).take c.height.toNat).map
    (fun row => (row.drop c.x.toNat).take c.width.toNat)

/-- Modelled from the spec: the preview render path of `EditorPage.tsx`
draws the cropped source through `ctx.filter := buildCSSFilters(...)`
(AdjustmentRenderer itself is absent from the repository; specification
section 4.4).  The render is the cropped grid with the filter chain applied
to every pixel; `ctx.filter = "none"` — the empty chain — leaves pixel data
unchanged. -/
def renderPreview {α : Type} (interp : CSSFilter → α → α)
    (src : List (List α)) (c : CropSettings) (a : Adjustments) :
    List (List α) :=
  (cropPixels src c).map (fun row => row.map (applyFilterChain interp (buildCSSFilters a)))

/-- A concrete 800×600 project in its freshly-uploaded state, used as the
evaluation point of the concrete theorems below. -/
def sampleProject : Project :=
  { title := "sample",
    image :=
      { originalFilename := "photo.jpg", filename := "photo-1.jpg",
        path := "uploads/photo-1.jpg", mimeType := "image/jpeg",
        size := 123456, width := 800, height := 600 },
    adjustments := defaultAdjustments,
    crop := none,
    history := [{ action := HistoryAction.upload, timestamp := 0,
                  changes := HistoryChanges.uploadChange }],
    tags := [],
    isPublic := false,
    starred := false,
    lastEdited := 0,
    version := 1 }

/-- A concrete in-bounds crop rectangle. -/
def sampleCrop : CropSettings :=
  { x := 100, y := 100, width := 400, height := 300, rotation := 0,
    flipHorizontal := false, flipVertical := false, aspect := "free" }

/-- A concrete well-formed crop request body, in bounds for an 800×600
image. -/
def sampleCropBody : CropBody :=
  { x := 100, y := 100, width := 400, height := 300 }

/-- A project whose history already holds exactly 50 entries. -/
def proj50 : Project :=
  { sampleProject with
    history := List.replicate 50
      { action := HistoryAction.adjust, timestamp := 1,
        changes := HistoryChanges.emptyChange } }

/-! ## Helper lemmas -/

/-- The empty filter chain is the identity on pixel values. -/
theorem applyFilterChain_nil {α : Type} (interp : CSSFilter → α → α) :
    applyFilterChain interp ([] : List CSSFilter) = fun v => v := rfl

/-- The cap step never returns more than 50 entries, whatever the input. -/
theorem cap50_length_le (h : List HistoryEntry) : (cap50 h).length ≤ 50 := by
  unfold cap50
  split
  · next hgt => simp only [List.length_drop]; omega
  · next hle => omega

/-- One append keeps the history at 50 entries or fewer. -/
theorem addHistory_history_length_le (p : Project) (a : HistoryAction)
    (ch : HistoryChanges) (t : Nat) :
    ((addHistory p a ch t).history).length ≤ 50 :=
  cap50_length_le _

/-- Any sequence of appends keeps the history at 50 entries or fewer, given
that it starts there. -/
theorem appendMany_history_length_le
    (l : List (HistoryAction × HistoryChanges × Nat)) (p : Project)
    (hp : p.history.length ≤ 50) :
    ((appendMany p l).history).length ≤ 50 := by
  induction l generalizing p with
  | nil => exact hp
  | cons hd tl ih =>
      exact ih (addHistory p hd.1 hd.2.1 hd.2.2)
        (addHistory_history_length_le p hd.1 hd.2.1 hd.2.2)

/-! ## Claims -/

/-- Claim C1: rendering with the default AdjustmentModel produces pixels
identical to the cropped-only source.  The filter chain `buildCSSFilters`
builds from the default model is empty (every stage is skipped at its zero
default), the returned filter string is the canvas identity "none", and the
preview render therefore equals the crop-only pixels — for every per-filter
pixel interpretation, every source grid and every crop. -/
theorem default_model_render_identity {α : Type} (interp : CSSFilter → α → α)
    (src : List (List α)) (c : CropSettings) :
    buildCSSFilters defaultAdjustments = [] ∧
    buildCSSFilterString defaultAdjustments = "none" ∧
    renderPreview interp src c defaultAdjustments = cropPixels src c := by
  refine ⟨rfl, rfl, ?_⟩
  have hb : buildCSSFilters defaultAdjustments = [] := rfl
  simp [renderPreview, hb, applyFilterChain_nil]

/-- Claim C2: the render is deterministic — two runs on identical inputs
(source grid, crop, adjustments, and per-filter semantics) produce identical
output.  The preview path is a pure function of these inputs; it consults no
clock, no global state and no randomness (the source has no grain stage, so
no seed enters the computation at all). -/
theorem render_deterministic {α : Type} (interp : CSSFilter → α → α)
    (s1 s2 : List (List α)) (c1 c2 : CropSettings) (a1 a2 : Adjustments)
    (hs : s1 = s2) (hc : c1 = c2) (ha : a1 = a2) :
    renderPreview interp s1 c1 a1 = renderPreview interp s2 c2 a2 := by
  rw [hs, hc, ha]

/-- Witness for C2 at a concrete 2×2 grid, crop and the default model. -/
theorem render_deterministic_check :
    renderPreview (fun _ v => v) [[(0 : Int), 1], [2, 3]] sampleCrop
        defaultAdjustments
      = renderPreview (fun _ v => v) [[(0 : Int), 1], [2, 3]] sampleCrop
        defaultAdjustments :=
  render_deterministic _ _ _ _ _ _ _ rfl rfl rfl

/-- Counterexample to claim C5 (exposure = 2^e gain): at exposure=1 the
preview emits brightness(120%), a 1.2× gain, not the 200% (2^1) the claim
requires. -/
theorem exposure_gain_counterexample :
    buildCSSFilters { defaultAdjustments with exposure := 1 }
      = [CSSFilter.brightness 120] ∧
    (120 : Int) ≠ 200 :=
  ⟨rfl, by decide⟩

/-- Claim C5 as amended: the exposure stage is a linear CSS brightness gain
of (100 + 20·e)% — i.e. a factor 1 + e/5 per unit, not 2^e — emitted
whenever exposure is nonzero. -/
theorem exposure_linear_gain (a : Adjustments) (h : a.exposure ≠ 0) :
    CSSFilter.brightness (100 + a.exposure * 20) ∈ buildCSSFilters a := by
  unfold buildCSSFilters
  rw [if_pos h]
  exact List.mem_append_left _ (List.mem_append_left _
    (List.mem_append_left _ (List.mem_singleton_self _)))

/-- Witness for C5's amended theorem at exposure=1: brightness(120%) is in
the chain. -/
theorem exposure_linear_gain_check :
    CSSFilter.brightness 120
      ∈ buildCSSFilters { defaultAdjustments with exposure := 1 } :=
  exposure_linear_gain _ (by decide)

/-- Claim C6: the history never exceeds 50 entries under any sequence of
appends starting from a compliant project, and appending to a full
50-entry history evicts exactly the oldest entry, keeping the 50 most
recent. -/
theorem history_cap_invariant (p : Project)
    (l : List (HistoryAction × HistoryChanges × Nat)) (a : HistoryAction)
    (ch : HistoryChanges) (t : Nat) (hp : p.history.length ≤ 50) :
    ((appendMany p l).history).length ≤ 50 ∧
    (p.history.length = 50 →
      (addHistory p a ch t).history
        = p.history.tail ++ [{ action := a, timestamp := t, changes := ch }]) := by
  refine ⟨appendMany_history_length_le l p hp, fun h50 => ?_⟩
  show cap50 (p.history ++ [{ action := a, timestamp := t, changes := ch }]) = _
  have hlen : (p.history ++ [({ action := a, timestamp := t, changes := ch } : HistoryEntry)]).length = 51 := by
    simp [h50]
  unfold cap50
  rw [if_pos (by omega), hlen, List.drop_append_of_le_length (by omega)]
  norm_num [List.drop_one]

/-- Witness for C6 on a project holding exactly 50 entries: one more append
stays at 50 and evicts the oldest entry. -/
theorem history_cap_check :
    ((appendMany proj50 [(HistoryAction.adjust, HistoryChanges.emptyChange, 3)]).history).length ≤ 50 ∧
    (proj50.history.length = 50 →
      (addHistory proj50 HistoryAction.adjust HistoryChanges.emptyChange 3).history
        = proj50.history.tail
          ++ [{ action := HistoryAction.adjust, timestamp := 3,
                changes := HistoryChanges.emptyChange }]) :=
  history_cap_invariant proj50 [(HistoryAction.adjust, HistoryChanges.emptyChange, 3)]
    HistoryAction.adjust HistoryChanges.emptyChange 3 (by simp [proj50])

/-- Claim C7: every history append — directly via `addHistory` (the path the
upload route uses) and through `applyAdjustments`, `applyCrop` and
`resetEdits` — increments the project version by exactly one and sets the
last-edited time to the append time, whether or not the cap evicted. -/
theorem addHistory_bumps_version (p : Project) (a : HistoryAction)
    (ch : HistoryChanges) (patch : AdjPatch) (c : CropSettings) (t : Nat) :
    (addHistory p a ch t).version = p.version + 1 ∧
    (addHistory p a ch t).lastEdited = t ∧
    (applyAdjustments p patch t).version = p.version + 1 ∧
    (applyAdjustments p patch t).lastEdited = t ∧
    (applyCrop p c t).version = p.version + 1 ∧
    (applyCrop p c t).lastEdited = t ∧
    (resetEdits p t).version = p.version + 1 ∧
    (resetEdits p t).lastEdited = t :=
  ⟨rfl, rfl, rfl, rfl, rfl, rfl, rfl, rfl⟩

/-- Claim C9: `applyAdjustments`, `applyCrop` and `resetEdits` never touch
the stored original image (filename, path, mime type, size, dimensions) nor
the project's other descriptive fields — editing is non-destructive. -/
theorem edits_preserve_image (p : Project) (patch : AdjPatch)
    (c : CropSettings) (t : Nat) :
    (applyAdjustments p patch t).image = p.image ∧
    (applyCrop p c t).image = p.image ∧
    (resetEdits p t).image = p.image ∧
    (applyAdjustments p patch t).title = p.title ∧
    (applyCrop p c t).title = p.title ∧
    (resetEdits p t).title = p.title ∧
    (applyAdjustments p patch t).tags = p.tags ∧
    (applyCrop p c t).tags = p.tags ∧
    (resetEdits p t).tags = p.tags :=
  ⟨rfl, rfl, rfl, rfl, rfl, rfl, rfl, rfl, rfl⟩

/-! ## ImageCache (client/src/utils/performance.ts) -/

/-- The `ImageCache` state: `cache` and `accessTimes` always hold exactly the
same keys (every mutation touches both), so the state is a single key→time
association list in Map insertion order, plus the injected capacity
`maxSize`.  The cached `HTMLImageElement` values play no role in the size
accounting and are omitted. -/
structure ICache where
  entries : List (String × Nat)
  maxSize : Nat
deriving DecidableEq

/-- JavaScript `Map.set` semantics: an existing key keeps its position and
gets the new value; a new key is appended at the end of iteration order. -/
def cacheInsert (entries : List (String × Nat)) (url : String) (t : Nat) :
    List (String × Nat) :=
  if entries.any (fun e => e.1 == url) then
    entries.map (fun e => if e.1 == url then (e.1, t) else e)
  else entries ++ [(url, t)]

/-- The scan loop of `evictLRU`: `oldestTime` starts at the current
`Date.now()` reading and `oldestKey` at the empty string; an entry becomes
the candidate only when its time is strictly below the current oldest. -/
def evictScan : List (String × Nat) → Nat → String → String
  | [], _, best => best
  | (k, ts) :: rest, oldestTime, best =>
      if ts < oldestTime then evictScan rest ts k
      else evictScan rest oldestTime best

/-- `evictLRU`: find the least-recently-used key by the scan above; the
source guards the deletion with `if (oldestKey)`, the empty string being
falsy — so nothing is evicted when no entry is strictly older than the
clock reading (and the delete removes the key from both maps). -/
def evictLRU (c : ICache) (now : Nat) : ICache :=
  if evictScan c.entries now "" = "" then c
  else
    { c with entries := c.entries.eraseP (fun e => e.1 == evictScan c.entries now "") }

/-- `ImageCache.set`: when the cache is at or above capacity
(`this.cache.size >= this.maxSize`), run `evictLRU` first; then insert the
entry with the current time into both maps. -/
def cacheSet (c : ICache) (url : String) (t : Nat) : ICache :=
  if c.entries.length ≥ c.maxSize then
    { c with entries := cacheInsert ((evictLRU c t).entries) url t }
  else
    { c with entries := cacheInsert c.entries url t }

/-- `ImageCache.get`: a hit refreshes the entry's access time to the current
clock reading; a miss changes nothing.  The entry count is unchanged. -/
def cacheGet (c : ICache) (url : String) (t : Nat) : ICache :=
  if c.entries.any (fun e => e.1 == url) then
    { c with entries := c.entries.map (fun e => if e.1 == url then (e.1, t) else e) }
  else c

/-- `ImageCache.clear`: empty both maps. -/
def cacheClear (c : ICache) : ICache := { c with entries := [] }

/-- One client call into the cache, tagged with the `Date.now()` reading the
call observes. -/
inductive CacheOp
  | get (url : String)
  | set (url : String)
  | clear
deriving DecidableEq

/-- Dispatch one timed operation. -/
def stepOp (c : ICache) : CacheOp → Nat → ICache
  | CacheOp.get url, t => cacheGet c url t
  | CacheOp.set url, t => cacheSet c url t
  | CacheOp.clear, _ => cacheClear c

/-- Run a timed sequence of cache operations from a starting state. -/
def runOps (c : ICache) : List (CacheOp × Nat) → ICache
  | [] => c
  | (op, t) :: rest => runOps (stepOp c op t) rest

/-- The url an operation touches is a nonempty string (the empty string is
falsy in the `if (oldestKey)` guard, so it is not a usable cache key). -/
def opUrlOk : CacheOp → Bool
  | CacheOp.get url => url != ""
  | CacheOp.set url => url != ""
  | CacheOp.clear => true

/-- Timestamps strictly increase along the sequence — each `Date.now()`
reading is strictly later than the previous one — and every url is
nonempty. -/
def opsOk : Nat → List (CacheOp × Nat) → Bool
  | _, [] => true
  | tp, (op, t) :: rest => decide (tp < t) && opUrlOk op && opsOk t rest

/-- Cache well-formedness at clock reading `t`: within capacity, all stored
access times at most `t`, and no empty-string key. -/
def cacheWF (c : ICache) (t : Nat) : Prop :=
  c.entries.length ≤ c.maxSize ∧ (∀ e ∈ c.entries, e.2 ≤ t) ∧
    (∀ e ∈ c.entries, e.1 ≠ "")

/-! ## ImageCache lemmas -/

/-- Unfolding equation of the scan on a cons cell. -/
theorem evictScan_cons (k : String) (ts oldestTime : Nat) (best : String)
    (rest : List (String × Nat)) :
    evictScan ((k, ts) :: rest) oldestTime best
      = if ts < oldestTime then evictScan rest ts k
        else evictScan rest oldestTime best := rfl

/-- The scan returns either its initial candidate or a key present in the
list. -/
theorem evictScan_eq_or_mem (l : List (String × Nat)) (t0 : Nat) (b : String) :
    evictScan l t0 b = b ∨ ∃ ts, (evictScan l t0 b, ts) ∈ l := by
  induction l generalizing t0 b with
  | nil => exact Or.inl rfl
  | cons hd tl ih =>
      obtain ⟨k, ts⟩ := hd
      rw [evictScan_cons]
      by_cases hc : ts < t0
      · rw [if_pos hc]
        rcases ih ts k with he | ⟨u, hmem⟩
        · exact Or.inr ⟨ts, by rw [he]; exact List.mem_cons_self _ _⟩
        · exact Or.inr ⟨u, List.mem_cons_of_mem _ hmem⟩
      · rw [if_neg hc]
        rcases ih t0 b with he | ⟨u, hmem⟩
        · exact Or.inl he
        · exact Or.inr ⟨u, List.mem_cons_of_mem _ hmem⟩

/-- When some entry is strictly older than the initial bound, the scan
returns a key that is present in the list (never the initial candidate of a
key-free run). -/
theorem evictScan_mem (l : List (String × Nat)) (t0 : Nat) (b : String)
    (h : ∃ e ∈ l, e.2 < t0) : ∃ ts, (evictScan l t0 b, ts) ∈ l := by
  induction l generalizing t0 b with
  | nil => simp at h
  | cons hd tl ih =>
      obtain ⟨k, ts⟩ := hd
      rw [evictScan_cons]
      by_cases hc : ts < t0
      · rw [if_pos hc]
        rcases evictScan_eq_or_mem tl ts k with he | ⟨u, hmem⟩
        · exact ⟨ts, by rw [he]; exact List.mem_cons_self _ _⟩
        · exact ⟨u, List.mem_cons_of_mem _ hmem⟩
      · rw [if_neg hc]
        obtain ⟨e, hmem, hlt⟩ := h
        rcases List.mem_cons.mp hmem with rfl | hmem2
        · exact absurd hlt hc
        · obtain ⟨u, hu⟩ := ih t0 b ⟨e, hmem2, hlt⟩
          exact ⟨u, List.mem_cons_of_mem _ hu⟩

/-- Inserting grows the entry list by at most one. -/
theorem cacheInsert_length_le (l : List (String × Nat)) (url : String)
    (t : Nat) : (cacheInsert l url t).length ≤ l.length + 1 := by
  unfold cacheInsert
  split
  · simp only [List.length_map]; omega
  · simp only [List.length_append, List.length_cons, List.length_nil]; omega

/-- Inserting at time `t` keeps every access time at most `t`, given the
old entries already satisfied the bound. -/
theorem cacheInsert_times (l : List (String × Nat)) (url : String) (t : Nat)
    (h : ∀ e ∈ l, e.2 ≤ t) : ∀ e ∈ cacheInsert l url t, e.2 ≤ t := by
  intro e he
  unfold cacheInsert at he
  split at he
  · obtain ⟨x, hx, rfl⟩ := List.mem_map.mp he
    split
    · exact Nat.le_refl t
    · exact h x hx
  · rcases List.mem_append.mp he with h1 | h2
    · exact h e h1
    · rw [List.mem_singleton.mp h2]

/-- Inserting a nonempty url keeps every key nonempty. -/
theorem cacheInsert_keys (l : List (String × Nat)) (url : String) (t : Nat)
    (hk : ∀ e ∈ l, e.1 ≠ "") (hurl : url ≠ "") :
    ∀ e ∈ cacheInsert l url t, e.1 ≠ "" := by
  intro e he
  unfold cacheInsert at he
  split at he
  · obtain ⟨x, hx, rfl⟩ := List.mem_map.mp he
    split
    · exact hk x hx
    · exact hk x hx
  · rcases List.mem_append.mp he with h1 | h2
    · exact hk e h1
    · rw [List.mem_singleton.mp h2]; exact hurl

/-- Eviction removes exactly one entry when the cache is nonempty, all
times are strictly below the clock, and no key is the empty string. -/
theorem evictLRU_length (c : ICache) (now : Nat) (hne : c.entries ≠ [])
    (htimes : ∀ e ∈ c.entries, e.2 < now) (hk : ∀ e ∈ c.entries, e.1 ≠ "") :
    ((evictLRU c now).entries).length = c.entries.length - 1 := by
  have hex : ∃ e ∈ c.entries, e.2 < now := by
    cases hent : c.entries with
    | nil => exact absurd hent hne
    | cons hd tl =>
        exact ⟨hd, List.mem_cons_self _ _,
          htimes hd (by rw [hent]; exact List.mem_cons_self _ _)⟩
  obtain ⟨ts, hmem⟩ := evictScan_mem c.entries now "" hex
  have hkne : evictScan c.entries now "" ≠ "" :=
    hk (evictScan c.entries now "", ts) hmem
  unfold evictLRU
  rw [if_neg hkne]
  exact List.length_eraseP_of_mem hmem (by simp)

/-- Eviction only removes entries: the survivors were already present. -/
theorem evictLRU_subset (c : ICache) (now : Nat) :
    ∀ e ∈ (evictLRU c now).entries, e ∈ c.entries := by
  intro e he
  unfold evictLRU at he
  split at he
  · exact he
  · exact List.mem_of_mem_eraseP he

/-- Eviction does not change the capacity. -/
theorem evictLRU_maxSize (c : ICache) (now : Nat) :
    (evictLRU c now).maxSize = c.maxSize := by
  unfold evictLRU
  split <;> rfl

/-- No operation changes the capacity. -/
theorem stepOp_maxSize (c : ICache) (op : CacheOp) (t : Nat) :
    (stepOp c op t).maxSize = c.maxSize := by
  cases op with
  | get url =>
      show (cacheGet c url t).maxSize = c.maxSize
      unfold cacheGet; split <;> rfl
  | set url =>
      show (cacheSet c url t).maxSize = c.maxSize
      unfold cacheSet; split <;> rfl
  | clear => rfl

/-- `set` preserves well-formedness, advancing the clock: the cache stays
within capacity provided the capacity is positive, the new reading is
strictly later than every stored time, and the url is a real key. -/
theorem cacheSet_WF (c : ICache) (url : String) (tp t : Nat)
    (hlen : c.entries.length ≤ c.maxSize)
    (htimes : ∀ e ∈ c.entries, e.2 ≤ tp)
    (hkeys : ∀ e ∈ c.entries, e.1 ≠ "")
    (ht : tp < t) (hurl : url ≠ "") (hm : 1 ≤ c.maxSize) :
    ((cacheSet c url t).entries).length ≤ c.maxSize ∧
    (∀ e ∈ (cacheSet c url t).entries, e.2 ≤ t) ∧
    (∀ e ∈ (cacheSet c url t).entries, e.1 ≠ "") := by
  by_cases hcap : c.entries.length ≥ c.maxSize
  · have hne : c.entries ≠ [] := by
      intro h0
      rw [h0] at hcap
      simp only [List.length_nil] at hcap
      omega
    have htlt : ∀ e ∈ c.entries, e.2 < t :=
      fun e he => Nat.lt_of_le_of_lt (htimes e he) ht
    have hev_len := evictLRU_length c t hne htlt hkeys
    have hev_sub := evictLRU_subset c t
    have h1 : (cacheSet c url t).entries
        = cacheInsert ((evictLRU c t).entries) url t := by
      unfold cacheSet; rw [if_pos hcap]
    rw [h1]
    refine ⟨?_, ?_, ?_⟩
    · have h2 := cacheInsert_length_le ((evictLRU c t).entries) url t
      omega
    · exact cacheInsert_times _ url t
        (fun e he => Nat.le_of_lt (htlt e (hev_sub e he)))
    · exact cacheInsert_keys _ url t
        (fun e he => hkeys e (hev_sub e he)) hurl
  · have h1 : (cacheSet c url t).entries = cacheInsert c.entries url t := by
      unfold cacheSet; rw [if_neg hcap]
    rw [h1]
    refine ⟨?_, ?_, ?_⟩
    · have h2 := cacheInsert_length_le c.entries url t
      omega
    · exact cacheInsert_times _ url t
        (fun e he => Nat.le_trans (htimes e he) (Nat.le_of_lt ht))
    · exact cacheInsert_keys _ url t hkeys hurl

/-- `get` preserves well-formedness, advancing the clock. -/
theorem cacheGet_WF (c : ICache) (url : String) (tp t : Nat)
    (hlen : c.entries.length ≤ c.maxSize)
    (htimes : ∀ e ∈ c.entries, e.2 ≤ tp)
    (hkeys : ∀ e ∈ c.entries, e.1 ≠ "") (ht : tp ≤ t) :
    ((cacheGet c url t).entries).length ≤ c.maxSize ∧
    (∀ e ∈ (cacheGet c url t).entries, e.2 ≤ t) ∧
    (∀ e ∈ (cacheGet c url t).entries, e.1 ≠ "") := by
  unfold cacheGet
  split
  · refine ⟨by simp only [List.length_map]; exact hlen, ?_, ?_⟩
    · intro e he
      obtain ⟨x, hx, rfl⟩ := List.mem_map.mp he
      split
      · exact Nat.le_refl t
      · exact Nat.le_trans (htimes x hx) ht
    · intro e he
      obtain ⟨x, hx, rfl⟩ := List.mem_map.mp he
      split
      · exact hkeys x hx
      · exact hkeys x hx
  · exact ⟨hlen, fun e he => Nat.le_trans (htimes e he) ht, hkeys⟩

/-- One step preserves well-formedness under a strictly later clock
reading, a nonempty url and positive capacity. -/
theorem stepOp_WF (c : ICache) (op : CacheOp) (tp t : Nat)
    (hwf : cacheWF c tp) (ht : tp < t) (hop : opUrlOk op = true)
    (hm : 1 ≤ c.maxSize) : cacheWF (stepOp c op t) t := by
  obtain ⟨h1, h2, h3⟩ := hwf
  have hms := stepOp_maxSize c op t
  unfold cacheWF
  rw [hms]
  cases op with
  | get url =>
      exact cacheGet_WF c url tp t h1 h2 h3 (Nat.le_of_lt ht)
  | set url =>
      exact cacheSet_WF c url tp t h1 h2 h3 ht
        (by simpa [opUrlOk] using hop) hm
  | clear =>
      exact ⟨by simp [stepOp, cacheClear], by simp [stepOp, cacheClear],
        by simp [stepOp, cacheClear]⟩

/-- Every well-timed sequence of operations keeps a well-formed cache
within capacity. -/
theorem runOps_length_le (ops : List (CacheOp × Nat)) (c : ICache) (tp : Nat)
    (hwf : cacheWF c tp) (hm : 1 ≤ c.maxSize) (hok : opsOk tp ops = true) :
    ((runOps c ops).entries).length ≤ c.maxSize := by
  induction ops generalizing c tp with
  | nil => exact hwf.1
  | cons hd tl ih =>
      obtain ⟨op, t⟩ := hd
      simp only [opsOk, Bool.and_eq_true, decide_eq_true_eq] at hok
      obtain ⟨⟨htp, hop⟩, hrest⟩ := hok
      have hstep := stepOp_WF c op tp t hwf htp hop hm
      have hm2 : 1 ≤ (stepOp c op t).maxSize := by
        rw [stepOp_maxSize]; exact hm
      have h := ih (stepOp c op t) t hstep hm2 hrest
      rw [stepOp_maxSize] at h
      exact h

/-- Counterexample to claim C10 as stated: with capacity 1 and two inserts
observing the same clock reading (two `Date.now()` calls in the same
millisecond), `evictLRU` finds no entry with time strictly below now,
evicts nothing, and the second insert drives the size to 2 > maxSize. -/
theorem imageCache_overflow_counterexample :
    (runOps { entries := [], maxSize := 1 }
        [(CacheOp.set "a", 5), (CacheOp.set "b", 5)]).maxSize = 1 ∧
    ((runOps { entries := [], maxSize := 1 }
        [(CacheOp.set "a", 5), (CacheOp.set "b", 5)]).entries).length = 2 :=
  ⟨rfl, rfl⟩

/-- Claim C10 as amended: for every ImageCache constructed with positive
capacity `maxSize` and every get/set/clear sequence whose `Date.now()`
readings strictly increase and whose urls are nonempty, the number of
cached entries never exceeds `maxSize` — `set` evicts the least-recently-
used entry before inserting at capacity.  (With repeated equal clock
readings the bound fails; see the counterexample.) -/
theorem imageCache_bounded (m t0 : Nat) (ops : List (CacheOp × Nat))
    (hm : 1 ≤ m) (hops : opsOk t0 ops = true) :
    ((runOps { entries := [], maxSize := m } ops).entries).length ≤ m := by
  have hwf : cacheWF { entries := [], maxSize := m } t0 := by
    refine ⟨by simp, by simp, by simp⟩
  exact runOps_length_le ops _ t0 hwf hm hops

/-- Witness for C10's amended theorem: capacity 1 with two strictly later
inserts stays at one entry. -/
theorem imageCache_bounded_check :
    (1 : Nat) ≤ 1 ∧
    opsOk 0 [(CacheOp.set "a", 1), (CacheOp.set "b", 2)] = true ∧
    ((runOps { entries := [], maxSize := 1 }
        [(CacheOp.set "a", 1), (CacheOp.set "b", 2)]).entries).length ≤ 1 :=
  ⟨by decide, by decide,
    imageCache_bounded 1 0 [(CacheOp.set "a", 1), (CacheOp.set "b", 2)]
      (by decide) (by decide)⟩

/-- The clamp lands in the target interval whenever the interval is
nonempty. -/
theorem clampInt_range (v lo hi : Int) (h : lo ≤ hi) :
    lo ≤ clampInt v lo hi ∧ clampInt v lo hi ≤ hi :=
  ⟨le_min (le_max_right _ _) h, min_le_right _ _⟩

/-- Claim C3: every numeric adjustment field written through the
adjustment-update operation (the projects router followed by
`applyAdjustments`) is clamped into its documented range rather than stored
raw or rejected: each of the fourteen scalar fields stores
`Math.min(Math.max(value, min), max)`, a numeric grain sub-field is clamped
into [0,100], the clamped exposure and contrast always land in range, and
in particular exposure=10 is stored as 5 and contrast=-500 as -100. -/
theorem clamp_on_write (p : Project) (v : Int) (now : Nat) :
    ((updateAdjustmentsRoute p { exposure := FieldVal.num v } now).adjustments).exposure = clampInt v (-5) 5 ∧
    ((updateAdjustmentsRoute p { contrast := FieldVal.num v } now).adjustments).contrast = clampInt v (-100) 100 ∧
    ((updateAdjustmentsRoute p { highlights := FieldVal.num v } now).adjustments).highlights = clampInt v (-100) 100 ∧
    ((updateAdjustmentsRoute p { shadows := FieldVal.num v } now).adjustments).shadows = clampInt v (-100) 100 ∧
    ((updateAdjustmentsRoute p { whites := FieldVal.num v } now).adjustments).whites = clampInt v (-100) 100 ∧
    ((updateAdjustmentsRoute p { blacks := FieldVal.num v } now).adjustments).blacks = clampInt v (-100) 100 ∧
    ((updateAdjustmentsRoute p { temperature := FieldVal.num v } now).adjustments).temperature = clampInt v (-100) 100 ∧
    ((updateAdjustmentsRoute p { tint := FieldVal.num v } now).adjustments).tint = clampInt v (-100) 100 ∧
    ((updateAdjustmentsRoute p { vibrance := FieldVal.num v } now).adjustments).vibrance = clampInt v (-100) 100 ∧
    ((updateAdjustmentsRoute p { saturation := FieldVal.num v } now).adjustments).saturation = clampInt v (-100) 100 ∧
    ((updateAdjustmentsRoute p { texture := FieldVal.num v } now).adjustments).texture = clampInt v (-100) 100 ∧
    ((updateAdjustmentsRoute p { clarity := FieldVal.num v } now).adjustments).clarity = clampInt v (-100) 100 ∧
    ((updateAdjustmentsRoute p { dehaze := FieldVal.num v } now).adjustments).dehaze = clampInt v (-100) 100 ∧
    ((updateAdjustmentsRoute p { vignette := FieldVal.num v } now).adjustments).vignette = clampInt v (-100) 100 ∧
    ((updateAdjustmentsRoute p { grain := some { amount := FieldVal.num v } } now).adjustments).grain.amount = clampInt v 0 100 ∧
    (-5 ≤ ((updateAdjustmentsRoute p { exposure := FieldVal.num v } now).adjustments).exposure ∧
      ((updateAdjustmentsRoute p { exposure := FieldVal.num v } now).adjustments).exposure ≤ 5) ∧
    (-100 ≤ ((updateAdjustmentsRoute p { contrast := FieldVal.num v } now).adjustments).contrast ∧
      ((updateAdjustmentsRoute p { contrast := FieldVal.num v } now).adjustments).contrast ≤ 100) ∧
    ((updateAdjustmentsRoute p { exposure := FieldVal.num 10 } now).adjustments).exposure = 5 ∧
    ((updateAdjustmentsRoute p { contrast := FieldVal.num (-500) } now).adjustments).contrast = -100 :=
  ⟨rfl, rfl, rfl, rfl, rfl, rfl, rfl, rfl, rfl, rfl, rfl, rfl, rfl, rfl, rfl,
    clampInt_range v (-5) 5 (by decide), clampInt_range v (-100) 100 (by decide),
    rfl, rfl⟩

/-- Claim C4: the crop route enforces the bounds invariant at acceptance
time.  For any well-formed request whose rectangle lies inside the image,
acceptance succeeds (never fails) and hands the crop to `applyCrop`; when
x+width exceeds the image width or y+height exceeds the image height, it
always fails with the out-of-bounds error (the 400 "Crop bounds exceed
image dimensions" response, the code's OutOfBoundsError); and every
accepted project stores a crop satisfying x+width ≤ image width and
y+height ≤ image height. -/
theorem crop_bounds_checked (p : Project) (b : CropBody) (now : Nat)
    (hwf : cropBodyOk b = true) :
    (0 ≤ b.x → 0 ≤ b.y → b.x + b.width ≤ p.image.width →
      b.y + b.height ≤ p.image.height →
      acceptCrop p b now = Except.ok (applyCrop p (cropOfBody b) now)) ∧
    (b.x + b.width > p.image.width ∨ b.y + b.height > p.image.height →
      acceptCrop p b now = Except.error CropError.outOfBounds) ∧
    (∀ q, acceptCrop p b now = Except.ok q → ∀ c, q.crop = some c →
      0 ≤ c.x ∧ 0 ≤ c.y ∧ c.x + c.width ≤ p.image.width ∧
        c.y + c.height ≤ p.image.height) := by
  have hacc : acceptCrop p b now
      = if b.x < 0 ∨ b.y < 0 ∨ b.x + b.width > p.image.width ∨
            b.y + b.height > p.image.height then
          Except.error CropError.outOfBounds
        else Except.ok (applyCrop p (cropOfBody b) now) := by
    unfold acceptCrop
    rw [if_pos hwf]
  refine ⟨fun hx hy hxw hyh => ?_, fun hover => ?_, fun q hq c hc => ?_⟩
  · rw [hacc, if_neg (by omega)]
  · rw [hacc, if_pos (by omega)]
  · rw [hacc] at hq
    by_cases hcond : b.x < 0 ∨ b.y < 0 ∨ b.x + b.width > p.image.width ∨
        b.y + b.height > p.image.height
    · rw [if_pos hcond] at hq
      simp at hq
    · rw [if_neg hcond] at hq
      have hq2 := Except.ok.inj hq
      subst hq2
      have hc2 : some (cropOfBody b) = some c := hc
      have hc3 := Option.some.inj hc2
      subst hc3
      show 0 ≤ b.x ∧ 0 ≤ b.y ∧ b.x + b.width ≤ p.image.width ∧
        b.y + b.height ≤ p.image.height
      omega

/-- Witness for C4 on the 800×600 sample project with the in-bounds
400×300 rectangle at (100,100): the body is well-formed and the three
conjuncts hold there. -/
theorem crop_bounds_checked_check :
    (0 ≤ sampleCropBody.x → 0 ≤ sampleCropBody.y →
      sampleCropBody.x + sampleCropBody.width ≤ sampleProject.image.width →
      sampleCropBody.y + sampleCropBody.height ≤ sampleProject.image.height →
      acceptCrop sampleProject sampleCropBody 0
        = Except.ok (applyCrop sampleProject (cropOfBody sampleCropBody) 0)) ∧
    (sampleCropBody.x + sampleCropBody.width > sampleProject.image.width ∨
      sampleCropBody.y + sampleCropBody.height > sampleProject.image.height →
      acceptCrop sampleProject sampleCropBody 0
        = Except.error CropError.outOfBounds) ∧
    (∀ q, acceptCrop sampleProject sampleCropBody 0 = Except.ok q →
      ∀ c, q.crop = some c →
      0 ≤ c.x ∧ 0 ≤ c.y ∧ c.x + c.width ≤ sampleProject.image.width ∧
        c.y + c.height ≤ sampleProject.image.height) :=
  crop_bounds_checked sampleProject sampleCropBody 0 (by decide)

/-- Counterexample to claim C8 (out-of-range fields "rejected individually
… left un-applied"): in the batch with valid exposure=2 and out-of-range
contrast=-500, the route does apply the out-of-range field — contrast is
stored as the clamped -100, changed from its previous value 0, not left
un-applied. -/
theorem partial_batch_counterexample :
    ((updateAdjustmentsRoute sampleProject
        { exposure := FieldVal.num 2, contrast := FieldVal.num (-500) } 0).adjustments).exposure = 2 ∧
    ((updateAdjustmentsRoute sampleProject
        { exposure := FieldVal.num 2, contrast := FieldVal.num (-500) } 0).adjustments).contrast = -100 ∧
    sampleProject.adjustments.contrast = 0 ∧
    (-100 : Int) ≠ 0 :=
  ⟨rfl, rfl, rfl, by decide⟩

/-- Claim C8 as amended: the route validates per field and applies the
batch partially — a non-numeric field is skipped individually and left
un-applied while a valid field in the same request still applies; an
out-of-range numeric field is not rejected but clamped into range and
applied; a curves array with fewer than two in-range points is dropped as a
whole, while one with at least two stores the filtered points; no invalid
field aborts the rest of the batch. -/
theorem batch_per_field_validation (p : Project) (v : Int) (now : Nat) :
    ((updateAdjustmentsRoute p
        { exposure := FieldVal.num v, contrast := FieldVal.nonNum } now).adjustments).exposure = clampInt v (-5) 5 ∧
    ((updateAdjustmentsRoute p
        { exposure := FieldVal.num v, contrast := FieldVal.nonNum } now).adjustments).contrast = p.adjustments.contrast ∧
    ((updateAdjustmentsRoute p
        { exposure := FieldVal.num v, contrast := FieldVal.num (-500) } now).adjustments).contrast = -100 ∧
    ((updateAdjustmentsRoute p
        { curves := some [CurveEntry.pt 0 0, CurveEntry.pt 300 10] } now).adjustments).curves = p.adjustments.curves ∧
    ((updateAdjustmentsRoute p
        { curves := some [CurveEntry.pt 0 0, CurveEntry.pt 300 10, CurveEntry.pt 255 255] } now).adjustments).curves
      = [{ x := 0, y := 0 }, { x := 255, y := 255 }] :=
  ⟨rfl, rfl, rfl, rfl, rfl⟩
